import Mathlib

/-!
Verification of the schema-driven test-data synthesis engine of the
auto-api-tester repository.  The definitions below are shallow embeddings of
the Go functions in internal/testdata/generator/db_generator.go,
internal/testdata/generator/table_analyzer.go and (for the basic generator
variant) internal/testdata/generator.go.  Randomness, the database boundary,
the LLM suggestion service and operator input are modelled as explicit
state / environment values threaded through the functions.
-/

namespace AutoApiTester

/-- JSON-like values, mirroring the Go interface-typed values that appear in
endpoint templates and generated bodies (nil, bool, number, string, array,
object).  Go numbers (int and float alike) are modelled as rationals. -/
inductive Json where
  | null : Json
  | bool : Bool → Json
  | num : ℚ → Json
  | str : String → Json
  | arr : List Json → Json
  | obj : List (String × Json) → Json

/-- Containment of sub as a contiguous sublist of l, checked at every
suffix. -/
def containsSubList (sub : List Char) : List Char → Bool
  | [] => sub.isEmpty
  | c :: t => sub.isPrefixOf (c :: t) || containsSubList sub t

/-- Model of Go strings.Contains(s, sub): sub occurs as a substring of s. -/
def goContains (s sub : String) : Bool :=
  containsSubList sub.toList s.toList

/-- ASCII lower-casing of one character, as Go strings.ToLower acts on the
ASCII identifiers handled by the generator. -/
def lowerChar (c : Char) : Char :=
  if 'A' ≤ c ∧ c ≤ 'Z' then Char.ofNat (c.toNat + 32) else c

/-- Model of Go strings.ToLower on the ASCII identifiers handled by the
generator. -/
def goToLower (s : String) : String :=
  String.mk (s.toList.map lowerChar)

/-- Model of Go strings.EqualFold for the identifiers used here
(case-insensitive equality via lower-casing). -/
def goEqualFold (s t : String) : Bool :=
  goToLower s == goToLower t

/-- Byte length of the (ASCII) strings manipulated by the generator; for the
generated values this coincides with Go len. -/
def strLen (s : String) : Nat :=
  s.toList.length

/-- Explicit pseudo-random state: the successive draws of the process-wide
generator seeded in NewDBGenerator.  ints feeds rand.Intn (the modelled draw
is reduced mod the requested bound), floats feeds rand.Float32/Float64,
uuids feeds uuid.New().String(). -/
structure Rand where
  ints : List Nat
  floats : List ℚ
  uuids : List String
deriving DecidableEq, Repr

/-- Model of rand.Intn n: next int draw, reduced into the interval 0..n-1. -/
def Rand.intn (r : Rand) (n : Nat) : Nat × Rand :=
  match r.ints with
  | [] => (0, r)
  | h :: t => (h % n, { r with ints := t })

/-- Model of rand.Float32 / rand.Float64: next draw in the interval 0..1. -/
def Rand.float (r : Rand) : ℚ × Rand :=
  match r.floats with
  | [] => (0, r)
  | h :: t => (h, { r with floats := t })

/-- Model of uuid.New().String(). -/
def Rand.uuid (r : Rand) : String × Rand :=
  match r.uuids with
  | [] => ("", r)
  | h :: t => (h, { r with uuids := t })

/-- Operator input stream: ints feeds fmt.Scanln into an int variable
(a failed scan leaves the Go zero value 0, which the empty-stream default
mirrors), strs feeds fmt.Scanln into a string variable. -/
structure Stdin where
  ints : List Int
  strs : List String
deriving DecidableEq, Repr

/-- Read one line into an int variable (fmt.Scanln with an int argument). -/
def Stdin.readInt (s : Stdin) : Int × Stdin :=
  match s.ints with
  | [] => (0, s)
  | h :: t => (h, { s with ints := t })

/-- Read one line into a string variable (fmt.Scanln with a string
argument). -/
def Stdin.readStr (s : Stdin) : String × Stdin :=
  match s.strs with
  | [] => ("", s)
  | h :: t => (h, { s with strs := t })

/-- Splits a character list at the first space: returns the part before the
first space and the part after it, or none when no space occurs.  This is the
list-level content of Go strings.SplitN(s, " ", 2). -/
def splitFirstAux : List Char → Option (List Char × List Char)
  | [] => none
  | c :: t =>
    if c = ' ' then some ([], t)
    else
      match splitFirstAux t with
      | none => none
      | some (a, b) => some (c :: a, b)

/-- Embedding of parseEndpointString (db_generator.go:167-174): SplitN on the
first space; with no space the method is empty and the path is the whole
key. -/
def parseEndpointString (endpoint : String) : String × String :=
  match splitFirstAux endpoint.toList with
  | none => ("", endpoint)
  | some (a, b) => (String.mk a, String.mk b)

theorem splitFirstAux_eq_none_iff (l : List Char) :
    splitFirstAux l = none ↔ ' ' ∉ l := by
  induction l with
  | nil => simp [splitFirstAux]
  | cons c t ih =>
    by_cases hc : c = ' '
    · subst hc; simp [splitFirstAux]
    · cases h : splitFirstAux t with
      | none =>
        have hnt : ' ' ∉ t := ih.mp h
        simp only [splitFirstAux, if_neg hc, h, List.mem_cons]
        constructor
        · intro _ hmem
          rcases hmem with h1 | h2
          · exact hc h1.symm
          · exact hnt h2
        · intro _; trivial
      | some p =>
        obtain ⟨a, b⟩ := p
        have hmt : ' ' ∈ t := by
          by_contra hmem
          rw [ih.mpr hmem] at h
          exact Option.noConfusion h
        simp only [splitFirstAux, if_neg hc, h, List.mem_cons]
        constructor
        · intro hfalse; exact Option.noConfusion hfalse
        · intro hmem; exact absurd (Or.inr hmt) hmem

theorem splitFirstAux_sound (l : List Char) :
    ∀ a b, splitFirstAux l = some (a, b) → l = a ++ ' ' :: b ∧ ' ' ∉ a := by
  induction l with
  | nil => intro a b h; simp [splitFirstAux] at h
  | cons c t ih =>
    intro a b h
    by_cases hc : c = ' '
    · subst hc
      simp [splitFirstAux] at h
      obtain ⟨ha, hb⟩ := h
      subst ha; subst hb
      simp
    · simp only [splitFirstAux, if_neg hc] at h
      cases hsub : splitFirstAux t with
      | none =>
        rw [hsub] at h
        exact Option.noConfusion h
      | some p =>
        obtain ⟨a', b'⟩ := p
        rw [hsub] at h
        simp only [Option.some.injEq, Prod.mk.injEq] at h
        obtain ⟨h1, h2⟩ := h
        subst h1; subst h2
        obtain ⟨hl, hna⟩ := ih a' b' hsub
        refine ⟨by simp [hl], ?_⟩
        intro hmem
        rcases List.mem_cons.mp hmem with h1 | h2
        · exact hc h1.symm
        · exact hna h2

/-- C10: endpoint-key parsing is total and shape-preserving: a key containing
a space splits into the text before the first space (the method, itself
space-free) and the remainder (the path, possibly containing further
spaces); a key with no space parses to an empty method and the whole key as
path.  parseEndpointString is a total function, so no endpoint entry is ever
rejected by parsing. -/
theorem parseEndpointString_total (s : String) :
    (' ' ∈ s.toList →
      (parseEndpointString s).1.toList ++ ' ' :: (parseEndpointString s).2.toList
          = s.toList
        ∧ ' ' ∉ (parseEndpointString s).1.toList)
    ∧ (' ' ∉ s.toList → parseEndpointString s = ("", s)) := by
  constructor
  · intro hmem
    cases h : splitFirstAux s.toList with
    | none => exact absurd hmem ((splitFirstAux_eq_none_iff s.toList).mp h)
    | some p =>
      obtain ⟨a, b⟩ := p
      obtain ⟨hl, hna⟩ := splitFirstAux_sound s.toList a b h
      unfold parseEndpointString
      rw [h]
      exact ⟨hl.symm, hna⟩
  · intro hmem
    unfold parseEndpointString
    rw [(splitFirstAux_eq_none_iff s.toList).mpr hmem]

/-- Witness for C10: a key with no space parses to an empty method and the
whole key as path. -/
theorem parseEndpointString_total_witness :
    parseEndpointString "GET/api/users" = ("", "GET/api/users") :=
  (parseEndpointString_total "GET/api/users").2 (by decide)

/-- Column metadata, mirroring the fields of ColumnInfo
(table_analyzer.go:18-38) that the embedded generator functions read.  The
remaining Go fields (Default, IsUnique, CheckConstraint, EnumValues,
Precision, Scale, MinValue, MaxValue, Pattern, DomainName, Comment) are never
read by the functions modelled here. -/
structure ColumnInfo where
  Name : String
  Type' : String
  Nullable : Bool
  IsPrimary : Bool
  IsForeign : Bool
  References : String
  MaxLength : Nat
  IsAutoIncrement : Bool
deriving DecidableEq, Repr

/-- The zero value ColumnInfo\x7b\x7d used by the Go code when no column
metadata is available. -/
def ColumnInfo.empty : ColumnInfo :=
  { Name := "", Type' := "", Nullable := false, IsPrimary := false,
    IsForeign := false, References := "", MaxLength := 0,
    IsAutoIncrement := false }

/-- The wall clock, abstracting the time.Now()-derived formatted strings the
generator emits.  Each field is one formatting pattern that appears in
db_generator.go. -/
structure Clock where
  yearsAgoDate : Nat → String
  nowRfc3339 : String
  addHoursRfc3339 : Nat → String
  addDaysDate : Nat → String
  addHoursClockTime : Nat → String

/-- The 62-character alphanumeric charset of the varchar branch
(db_generator.go:925). -/
def charset : List Char :=
  "abcdefghijklmnopqrstuvwxyzABCDEFGHIJKLMNOPQRSTUVWXYZ0123456789".toList

/-- The loop at db_generator.go:926-929: one rand.Intn(62) draw per
character. -/
def randAlnumChars : Nat → Rand → List Char × Rand
  | 0, r => ([], r)
  | n + 1, r =>
    let (i, r1) := r.intn 62
    let (rest, r2) := randAlnumChars n r1
    (charset.getD i 'a' :: rest, r2)

/-- The name-pattern switch of generateValueForType
(db_generator.go:861-910): the cases in source order, first match wins; none
when no pattern matches and control falls through to the type switch.  The
argument name is already lower-cased by the caller, as in the Go code. -/
def nameHeuristicValue (clock : Clock) (name : String) (r : Rand) :
    Option (Json × Rand) :=
  if goContains name "email" then
    let (n, r1) := r.intn 1000
    some (.str ("user_" ++ toString n ++ "@example.com"), r1)
  else if goContains name "phone" then
    let (a, r1) := r.intn 900
    let (b, r2) := r1.intn 900
    let (c, r3) := r2.intn 9000
    some (.str ("+1-" ++ toString (a + 100) ++ "-" ++ toString (b + 100)
      ++ "-" ++ toString (c + 1000)), r3)
  else if goContains name "first_name" then
    let (n, r1) := r.intn 100
    some (.str ("John" ++ toString n), r1)
  else if goContains name "last_name" then
    let (n, r1) := r.intn 100
    some (.str ("Doe" ++ toString n), r1)
  else if goContains name "address" then
    let (n, r1) := r.intn 1000
    some (.str (toString (n + 1) ++ " Main St"), r1)
  else if goContains name "city" then
    let (n, r1) := r.intn 100
    some (.str ("City" ++ toString n), r1)
  else if goContains name "country" then
    let (n, r1) := r.intn 100
    some (.str ("Country" ++ toString n), r1)
  else if goContains name "postal_code" || goContains name "zip" then
    let (a, r1) := r.intn 90000
    let (b, r2) := r1.intn 1000
    some (.str (toString (a + 10000) ++ toString (b + 100)), r2)
  else if goContains name "date_of_birth" then
    let (y, r1) := r.intn 62
    some (.str (clock.yearsAgoDate (y + 18)), r1)
  else if goContains name "username" then
    let (n, r1) := r.intn 1000
    some (.str ("user_" ++ toString n), r1)
  else if goContains name "vat" then
    let (n, r1) := r.intn 1000000
    some (.str ("VAT" ++ toString n), r1)
  else if goContains name "system_name" then
    let (n, r1) := r.intn 1000
    some (.str ("system_" ++ toString n), r1)
  else if goContains name "timezone" then
    some (.str "UTC", r)
  else if goContains name "gender" then
    let (i, r1) := r.intn 3
    some (.str (["M", "F", "O"].getD i "M"), r1)
  else if goContains name "company" then
    let (n, r1) := r.intn 1000
    some (.str ("Company" ++ toString n), r1)
  else if goContains name "county" then
    let (n, r1) := r.intn 100
    some (.str ("County" ++ toString n), r1)
  else if goContains name "comment" then
    let (n, r1) := r.intn 1000
    some (.str ("value_" ++ toString n), r1)
  else if goContains name "guid" then
    let (u, r1) := r.uuid
    some (.str u, r1)
  else if goContains name "id" then
    let (n, r1) := r.intn 1000
    some (.num (n + 1), r1)
  else if goContains name "created" || goContains name "updated" then
    some (.str clock.nowRfc3339, r)
  else if goContains name "deleted" then
    some (.bool false, r)
  else if goContains name "active" then
    some (.bool true, r)
  else
    none

/-- The type switch of generateValueForType (db_generator.go:913-967),
reached only when no name pattern matched.  columnName is the lower-cased
column name (used again by the user-defined branch). -/
def typeDispatchValue (clock : Clock) (colType : String) (columnName : String)
    (col : ColumnInfo) (r : Rand) : Json × Rand :=
  let lt := goToLower colType
  if lt = "integer" ∨ lt = "int" ∨ lt = "int4" ∨ lt = "bigint" ∨ lt = "int8" then
    let (n, r1) := r.intn 1000
    (.num (n + 1), r1)
  else if lt = "numeric" ∨ lt = "decimal" ∨ lt = "real" ∨ lt = "double precision"
      ∨ lt = "float" ∨ lt = "float4" ∨ lt = "float8" then
    let (f, r1) := r.float
    (.num (f * 1000), r1)
  else if lt = "boolean" ∨ lt = "bool" then
    let (f, r1) := r.float
    (.bool (decide (f < mkRat 7 10)), r1)
  else if lt = "character varying" ∨ lt = "varchar" ∨ lt = "text" ∨ lt = "char"
      ∨ lt = "character" then
    let length := if col.MaxLength = 0 then 10 else col.MaxLength
    let (cs, r1) := randAlnumChars length r
    (.str (String.mk cs), r1)
  else if lt = "timestamp" ∨ lt = "timestamp with time zone" ∨ lt = "timestamptz"
      ∨ lt = "timestamp without time zone" then
    let (h, r1) := r.intn 1000
    (.str (clock.addHoursRfc3339 h), r1)
  else if lt = "date" then
    let (d, r1) := r.intn 365
    (.str (clock.addDaysDate d), r1)
  else if lt = "time" ∨ lt = "time with time zone" ∨ lt = "timetz" then
    let (h, r1) := r.intn 24
    (.str (clock.addHoursClockTime h), r1)
  else if lt = "uuid" then
    let (u, r1) := r.uuid
    (.str u, r1)
  else if lt = "user-defined" then
    if goContains columnName "date" || goContains columnName "time" then
      (.str clock.nowRfc3339, r)
    else if goContains columnName "name" then
      let (n, r1) := r.intn 1000
      (.str ("Name" ++ toString n), r1)
    else if goContains columnName "code" then
      let (n, r1) := r.intn 1000
      (.str ("CODE" ++ toString n), r1)
    else if goContains columnName "id" then
      let (n, r1) := r.intn 1000
      (.num (n + 1), r1)
    else
      let (n, r1) := r.intn 1000
      (.str ("value_" ++ toString n), r1)
  else
    if goContains lt "char" || goContains lt "text" then
      let (n, r1) := r.intn 1000
      (.str ("text_" ++ toString n), r1)
    else if goContains lt "int" || goContains lt "number" then
      let (n, r1) := r.intn 1000
      (.num n, r1)
    else if goContains lt "date" || goContains lt "time" then
      (.str clock.nowRfc3339, r)
    else
      let (n, r1) := r.intn 1000
      (.str ("value_" ++ toString n), r1)

/-- The part of generateValueForType after the null short-circuit: lower-case
the column name, consult the name heuristics, else dispatch on the type. -/
def generateValueForTypeBody (clock : Clock) (colType : String)
    (columnName : String) (col : ColumnInfo) (r : Rand) : Json × Rand :=
  let lname := goToLower columnName
  match nameHeuristicValue clock lname r with
  | some v => v
  | none => typeDispatchValue clock colType lname col r

/-- Embedding of generateValueForType (db_generator.go:854-968).  The Go
condition nullable && rand.Float32() < 0.1 short-circuits: the float draw
only happens when nullable is true.  The function never returns a Go
error. -/
def generateValueForType (clock : Clock) (colType : String) (nullable : Bool)
    (columnName : String) (col : ColumnInfo) (r : Rand) : Json × Rand :=
  if nullable then
    let (f, r1) := r.float
    if f < mkRat 1 10 then (.null, r1)
    else generateValueForTypeBody clock colType columnName col r1
  else generateValueForTypeBody clock colType columnName col r

/-- C4: for nullable columns the null short-circuit (draw below the fixed
probability 0.1) is evaluated before the name heuristics and the type
dispatch: when the draw selects null the result is null whatever the name
and declared type; when it does not (or the column is not nullable), a
matching name heuristic decides the value before, and independently of, the
declared type. -/
theorem generateValueForType_null_first (clock : Clock) (name : String)
    (col : ColumnInfo) (r : Rand) :
    (∀ tp, (r.float).1 < mkRat 1 10 →
      generateValueForType clock tp true name col r = (Json.null, (r.float).2))
    ∧ (∀ tp tp', (nameHeuristicValue clock (goToLower name) r).isSome = true →
      generateValueForType clock tp false name col r
        = generateValueForType clock tp' false name col r)
    ∧ (∀ tp tp', ¬ (r.float).1 < mkRat 1 10 →
      (nameHeuristicValue clock (goToLower name) (r.float).2).isSome = true →
      generateValueForType clock tp true name col r
        = generateValueForType clock tp' true name col r) := by
  refine ⟨?_, ?_, ?_⟩
  · intro tp hf
    rcases hfl : r.float with ⟨f, r1⟩
    rw [hfl] at hf
    simp only at hf
    simp [generateValueForType, hfl, hf]
  · intro tp tp' hsome
    cases hnh : nameHeuristicValue clock (goToLower name) r with
    | none => rw [hnh] at hsome; simp at hsome
    | some v => simp [generateValueForType, generateValueForTypeBody, hnh]
  · intro tp tp' hf hsome
    rcases hfl : r.float with ⟨f, r1⟩
    rw [hfl] at hf hsome
    simp only at hf hsome
    cases hnh : nameHeuristicValue clock (goToLower name) r1 with
    | none => rw [hnh] at hsome; simp at hsome
    | some v =>
      simp [generateValueForType, hfl, hf, generateValueForTypeBody, hnh]

/-- A concrete clock used by witnesses. -/
def witClock : Clock :=
  { yearsAgoDate := fun _ => "1980-01-01",
    nowRfc3339 := "2026-01-01T00:00:00Z",
    addHoursRfc3339 := fun _ => "2026-01-01T00:00:00Z",
    addDaysDate := fun _ => "2026-01-01",
    addHoursClockTime := fun _ => "00:00:00" }

/-- Witness for C4: a nullable column with draw 0.05 yields null even for an
email-named integer column, and for an email-named non-nullable column the
value does not depend on the declared type. -/
theorem generateValueForType_null_first_witness :
    generateValueForType witClock "integer" true "Email" ColumnInfo.empty
        ⟨[], [mkRat 1 20], []⟩ = (Json.null, ⟨[], [], []⟩)
    ∧ generateValueForType witClock "integer" false "Email" ColumnInfo.empty
        ⟨[7], [], []⟩
      = generateValueForType witClock "text" false "Email" ColumnInfo.empty
        ⟨[7], [], []⟩ := by
  constructor
  · have h := (generateValueForType_null_first witClock "Email" ColumnInfo.empty
      ⟨[], [mkRat 1 20], []⟩).1 "integer" (by decide)
    simpa [Rand.float] using h
  · exact (generateValueForType_null_first witClock "Email" ColumnInfo.empty
      ⟨[7], [], []⟩).2.1 "integer" "text" (by decide)

/-- Go comparison value != nil of an interface-typed template value. -/
def Json.isNull : Json → Bool
  | .null => true
  | _ => false

/-- Go comparison value == "" of an interface-typed template value against
the empty string. -/
def Json.isEmptyStr : Json → Bool
  | .str s => s == ""
  | _ => false

/-- The max-length constraint applied after synthesis in generateBodyFromDB
(db_generator.go:839-844): only a string value for a column with positive
MaxLength is clipped, and only when it is longer than MaxLength. -/
def clipToMaxLength (v : Json) (maxLen : Nat) : Json :=
  match v with
  | .str s =>
    if 0 < maxLen ∧ maxLen < strLen s then .str (String.mk (s.toList.take maxLen))
    else .str s
  | other => other

/-- The foreign-key resolution boundary of generateBodyFromDB: the
getValidForeignKeyValue call, abstracted as a function of the referenced
table, the column name and the random state. -/
abbrev FkResolver : Type :=
  String → String → Rand → Except String Json × Rand

/-- The body of the per-field loop of generateBodyFromDB
(db_generator.go:783-848): look the template field up among the table
columns (case-insensitive, first match); a missing column falls back to the
template default or a generic string value; an auto-increment primary key is
skipped; a foreign key is resolved through the boundary (a failure only
warns and skips the field); a non-null, non-empty template default is kept;
otherwise a value is synthesized by generateValueForType and then clipped to
MaxLength.  none means the loop adds no entry for this field. -/
def generateBodyFromDBField (clock : Clock) (fk : FkResolver)
    (cols : List ColumnInfo) (fieldName : String) (defaultValue : Json)
    (r : Rand) : Option (String × Json) × Rand :=
  match cols.find? (fun c => goEqualFold c.Name fieldName) with
  | none =>
    if defaultValue.isNull = false then (some (fieldName, defaultValue), r)
    else
      let (v, r1) := generateValueForType clock "string" true fieldName
        ColumnInfo.empty r
      (some (fieldName, v), r1)
  | some col =>
    if (col.IsPrimary && col.IsAutoIncrement) = true then (none, r)
    else if col.IsForeign = true then
      match fk col.References col.Name r with
      | (.ok v, r1) => (some (col.Name, v), r1)
      | (.error _, r1) => (none, r1)
    else if defaultValue.isNull = false ∧ defaultValue.isEmptyStr = false then
      (some (fieldName, defaultValue), r)
    else
      let (v, r1) := generateValueForType clock col.Type' col.Nullable col.Name
        col r
      (some (fieldName, clipToMaxLength v col.MaxLength), r1)

/-- The loop of generateBodyFromDB (db_generator.go:783-848) over the
template fields of the endpoint, in iteration order, collecting the data
map entries. -/
def generateBodyFromDB (clock : Clock) (fk : FkResolver)
    (cols : List ColumnInfo) (templateFields : List (String × Json))
    (r : Rand) : List (String × Json) × Rand :=
  match templateFields with
  | [] => ([], r)
  | (fieldName, defaultValue) :: rest =>
    let (entry, r1) := generateBodyFromDBField clock fk cols fieldName
      defaultValue r
    let (restOut, r2) := generateBodyFromDB clock fk cols rest r1
    (match entry with
     | none => restOut
     | some e => e :: restOut, r2)

theorem clipToMaxLength_length (v : Json) (m : Nat) (s : String)
    (hm : 0 < m) (h : clipToMaxLength v m = .str s) : strLen s ≤ m := by
  cases v with
  | str s0 =>
    simp only [clipToMaxLength] at h
    by_cases hc : 0 < m ∧ m < strLen s0
    · rw [if_pos hc] at h
      injection h with h
      subst h
      simp only [strLen, String.toList, List.length_take]
      omega
    · rw [if_neg hc] at h
      injection h with h
      subst h
      push_neg at hc
      exact hc hm
  | null => simp [clipToMaxLength] at h
  | bool b => simp [clipToMaxLength] at h
  | num q => simp [clipToMaxLength] at h
  | arr a => simp [clipToMaxLength] at h
  | obj o => simp [clipToMaxLength] at h

/-- C2: for a template field bound to a column with positive MaxLength that
reaches value synthesis (column found, not an auto-increment primary key,
not a foreign key, no non-null non-empty template default), any string value
placed in the body has length at most MaxLength: synthesis may produce a
longer string, but it is clipped before being stored. -/
theorem generateBodyFromDBField_string_clipped (clock : Clock)
    (fk : FkResolver) (cols : List ColumnInfo) (fieldName : String)
    (defaultValue : Json) (r : Rand) (col : ColumnInfo)
    (hfind : cols.find? (fun c => goEqualFold c.Name fieldName) = some col)
    (hml : 0 < col.MaxLength)
    (hskip : (col.IsPrimary && col.IsAutoIncrement) = false)
    (hfor : col.IsForeign = false)
    (hdv : defaultValue.isNull = true ∨ defaultValue.isEmptyStr = true)
    (k : String) (s : String) (r' : Rand)
    (hres : generateBodyFromDBField clock fk cols fieldName defaultValue r
      = (some (k, Json.str s), r')) :
    strLen s ≤ col.MaxLength := by
  unfold generateBodyFromDBField at hres
  split at hres
  next heq => rw [hfind] at heq; exact Option.noConfusion heq
  next col' heq =>
    rw [hfind] at heq
    injection heq with heq
    subst heq
    rw [if_neg (by simp [hskip])] at hres
    rw [if_neg (by simp [hfor])] at hres
    have hdcond : ¬ (defaultValue.isNull = false
        ∧ defaultValue.isEmptyStr = false) := by
      rcases hdv with h | h <;> (intro hcontra; rw [h] at hcontra; simp at hcontra)
    rw [if_neg hdcond] at hres
    rcases hg : generateValueForType clock col.Type' col.Nullable col.Name col r
      with ⟨v0, r0⟩
    rw [hg] at hres
    simp only [Prod.mk.injEq, Option.some.injEq] at hres
    exact clipToMaxLength_length v0 col.MaxLength s hml hres.1.2

/-- A concrete foreign-key resolver used by witnesses. -/
def witFk : FkResolver := fun _ _ r => (Except.ok (Json.num 1), r)

/-- An email column with MaxLength 5 used by witnesses. -/
def witEmailCol : ColumnInfo :=
  { Name := "email", Type' := "character varying", Nullable := false,
    IsPrimary := false, IsForeign := false, References := "", MaxLength := 5,
    IsAutoIncrement := false }

/-- Witness for C2: the email heuristic produces user_7@example.com, which
exceeds MaxLength 5 and is clipped to user_ (length 5) before storage. -/
theorem generateBodyFromDBField_string_clipped_witness :
    strLen "user_" ≤ 5 :=
  generateBodyFromDBField_string_clipped witClock witFk [witEmailCol] "email"
    Json.null ⟨[7], [], []⟩ witEmailCol (by decide) (by decide) rfl rfl
    (Or.inl rfl) "email" "user_" ⟨[], [], []⟩ rfl

/-- Pairwise case-insensitive distinctness of the column names of a table
(true of any sane SQL table, where column names are unique). -/
abbrev distinctFoldNames (cols : List ColumnInfo) : Prop :=
  cols.Pairwise (fun a b => goToLower a.Name ≠ goToLower b.Name)

theorem distinctFoldNames_eq (cols : List ColumnInfo)
    (hdist : distinctFoldNames cols) {a b : ColumnInfo} (ha : a ∈ cols)
    (hb : b ∈ cols) (hn : goToLower a.Name = goToLower b.Name) : a = b := by
  induction cols with
  | nil => cases ha
  | cons c t ih =>
    rcases List.pairwise_cons.mp hdist with ⟨hc, ht⟩
    rcases List.mem_cons.mp ha with rfl | ha2
    · rcases List.mem_cons.mp hb with rfl | hb2
      · rfl
      · exact absurd hn (hc b hb2)
    · rcases List.mem_cons.mp hb with rfl | hb2
      · exact absurd hn.symm (hc a ha2)
      · exact ih ht ha2 hb2

theorem generateBodyFromDBField_no_autoinc_key (clock : Clock)
    (fk : FkResolver) (cols : List ColumnInfo) (fieldName : String)
    (defaultValue : Json) (r : Rand) (c : ColumnInfo)
    (hdist : distinctFoldNames cols) (hc : c ∈ cols) (hp : c.IsPrimary = true)
    (ha : c.IsAutoIncrement = true) (k : String) (v : Json) (r' : Rand)
    (h : generateBodyFromDBField clock fk cols fieldName defaultValue r
      = (some (k, v), r')) :
    goToLower k ≠ goToLower c.Name := by
  intro hkc
  unfold generateBodyFromDBField at h
  split at h
  next heq =>
    have hpred := List.find?_eq_none.mp heq c hc
    have hkf : k = fieldName := by
      split at h
      · simp only [Prod.mk.injEq, Option.some.injEq] at h
        exact h.1.1.symm
      · rcases hg : generateValueForType clock "string" true fieldName
          ColumnInfo.empty r with ⟨v0, r0⟩
        rw [hg] at h
        simp only [Prod.mk.injEq, Option.some.injEq] at h
        exact h.1.1.symm
    apply hpred
    simp only [goEqualFold, beq_iff_eq]
    rw [← hkf]
    exact hkc.symm
  next col heq =>
    have hcolmem : col ∈ cols := List.mem_of_find?_eq_some heq
    have hcolpred := List.find?_some heq
    have hfold : goToLower col.Name = goToLower fieldName := by
      simpa [goEqualFold, beq_iff_eq] using hcolpred
    by_cases hpa : (col.IsPrimary && col.IsAutoIncrement) = true
    · rw [if_pos hpa] at h
      simp at h
    · rw [if_neg hpa] at h
      have hcne : col ≠ c := by
        intro hcc
        subst hcc
        rw [hp, ha] at hpa
        exact hpa rfl
      by_cases hfor : col.IsForeign = true
      · rw [if_pos hfor] at h
        rcases hfk : fk col.References col.Name r with ⟨res, r1⟩
        rw [hfk] at h
        cases res with
        | ok v0 =>
          simp only [Prod.mk.injEq, Option.some.injEq] at h
          have hkcol : k = col.Name := h.1.1.symm
          apply hcne
          apply distinctFoldNames_eq cols hdist hcolmem hc
          rw [← hkcol]
          exact hkc
        | error e => simp at h
      · rw [if_neg hfor] at h
        have hkf : k = fieldName := by
          split at h
          · simp only [Prod.mk.injEq, Option.some.injEq] at h
            exact h.1.1.symm
          · rcases hg : generateValueForType clock col.Type' col.Nullable
              col.Name col r with ⟨v0, r0⟩
            rw [hg] at h
            simp only [Prod.mk.injEq, Option.some.injEq] at h
            exact h.1.1.symm
        apply hcne
        apply distinctFoldNames_eq cols hdist hcolmem hc
        rw [hfold, ← hkf]
        exact hkc

/-- C3: for every column marked both primary and auto-increment, the body
generated for a write request never contains that column (under the usual
assumption that the column names of the table are pairwise distinct up to
case): the per-field loop skips such a column before any value synthesis. -/
theorem generateBodyFromDB_autoinc_excluded (clock : Clock) (fk : FkResolver)
    (cols : List ColumnInfo) (tmpl : List (String × Json)) (r : Rand)
    (hdist : distinctFoldNames cols) (c : ColumnInfo) (hc : c ∈ cols)
    (hp : c.IsPrimary = true) (ha : c.IsAutoIncrement = true) :
    ∀ k v, (k, v) ∈ (generateBodyFromDB clock fk cols tmpl r).1 →
      goToLower k ≠ goToLower c.Name := by
  induction tmpl generalizing r with
  | nil =>
    intro k v h
    simp [generateBodyFromDB] at h
  | cons kv rest ih =>
    intro k v hmem
    obtain ⟨fieldName, defaultValue⟩ := kv
    rcases hfe : generateBodyFromDBField clock fk cols fieldName defaultValue r
      with ⟨entry, r1⟩
    rcases hre : generateBodyFromDB clock fk cols rest r1 with ⟨restOut, r2⟩
    simp only [generateBodyFromDB, hfe, hre] at hmem
    cases entry with
    | none => exact ih r1 k v (by rw [hre]; exact hmem)
    | some e =>
      rcases List.mem_cons.mp (by simpa using hmem) with he | hrest
      · obtain ⟨k0, v0⟩ := e
        have hke : k0 = k ∧ v0 = v := by
          constructor
          · exact congrArg Prod.fst he.symm
          · exact congrArg Prod.snd he.symm
        obtain ⟨rfl, rfl⟩ := hke
        exact generateBodyFromDBField_no_autoinc_key clock fk cols fieldName
          defaultValue r c hdist hc hp ha k0 v0 r1 hfe
      · exact ih r1 k v (by rw [hre]; exact hrest)

/-- The two-column table (auto-increment primary id, plain name) used by the
C3 witness. -/
def witIdCol : ColumnInfo :=
  { Name := "id", Type' := "integer", Nullable := false, IsPrimary := true,
    IsForeign := false, References := "", MaxLength := 0,
    IsAutoIncrement := true }

/-- A plain varchar name column used by witnesses. -/
def witNameCol : ColumnInfo :=
  { Name := "name", Type' := "character varying", Nullable := false,
    IsPrimary := false, IsForeign := false, References := "", MaxLength := 0,
    IsAutoIncrement := false }

/-- Witness for C3: with a template naming both id and name, the generated
body contains no id entry. -/
theorem generateBodyFromDB_autoinc_excluded_witness :
    ("id", Json.null) ∉ (generateBodyFromDB witClock witFk [witIdCol, witNameCol]
      [("id", Json.null), ("name", Json.null)] ⟨[3, 4], [], []⟩).1 :=
  fun h => generateBodyFromDB_autoinc_excluded witClock witFk
    [witIdCol, witNameCol] [("id", Json.null), ("name", Json.null)]
    ⟨[3, 4], [], []⟩ (by decide) witIdCol (by decide) rfl rfl "id" Json.null h
    rfl

/-- Embedding of generateValueFromSample (db_generator.go:603-620): the
entire lookup logic is commented out in the source, so the function always
returns nil with no error. -/
def generateValueFromSample (_param : String)
    (_sample : List (String × Json)) : Json :=
  Json.null

/-- Embedding of generateBodyFromSample (db_generator.go:622-643): the
entire sample-copying logic is commented out in the source, so the function
always returns nil with no error. -/
def generateBodyFromSample (_sample : List (String × Json)) : Json :=
  Json.null

mutual

/-- The per-field switch inside generateObjectFromTemplate
(db_generator.go:515-547): a non-null object recurses, a non-null array is
re-synthesized, any other non-null value is kept verbatim, and a null value
is filled from the sample record. -/
def generateTemplateFieldValue (field : String) (tv : Json)
    (sample : List (String × Json)) (r : Rand) : Json × Rand :=
  match tv with
  | .obj o =>
    let (o2, r2) := generateObjectFromTemplate o sample r
    (Json.obj o2, r2)
  | .arr a =>
    let (a2, r2) := generateArrayFromTemplate a sample r
    (Json.arr a2, r2)
  | .null => (generateValueFromSample field sample, r)
  | other => (other, r)
termination_by (sizeOf tv, 0)

/-- Embedding of generateObjectFromTemplate (db_generator.go:511-550): each
template field is processed in iteration order. -/
def generateObjectFromTemplate (tmpl : List (String × Json))
    (sample : List (String × Json)) (r : Rand) :
    List (String × Json) × Rand :=
  match tmpl with
  | [] => ([], r)
  | (field, tv) :: rest =>
    let (v1, r1) := generateTemplateFieldValue field tv sample r
    let (restOut, r2) := generateObjectFromTemplate rest sample r1
    ((field, v1) :: restOut, r2)
termination_by (sizeOf tmpl, 0)

/-- Embedding of generateArrayFromTemplate (db_generator.go:553-589): an
empty template synthesizes one item from the sample record; otherwise the
first element is the stencil and rand.Intn(3)+1 items are generated. -/
def generateArrayFromTemplate (tmpl : List Json)
    (sample : List (String × Json)) (r : Rand) : List Json × Rand :=
  match tmpl with
  | [] => ([generateBodyFromSample sample], r)
  | stencil :: _rest =>
    let (n, r1) := r.intn 3
    generateArrayItems stencil sample (n + 1) r1
termination_by (sizeOf tmpl, 0)

/-- The item loop of generateArrayFromTemplate (db_generator.go:568-586). -/
def generateArrayItems (stencil : Json) (sample : List (String × Json))
    (count : Nat) (r : Rand) : List Json × Rand :=
  match count with
  | 0 => ([], r)
  | cnt + 1 =>
    let (item, r1) := generateArrayItemValue stencil sample r
    let (restItems, r2) := generateArrayItems stencil sample cnt r1
    (item :: restItems, r2)
termination_by (sizeOf stencil, count)

/-- The per-item switch inside the loop of generateArrayFromTemplate
(db_generator.go:573-580): an object or array stencil recurses, any other
stencil falls back to the sample generator with an empty field name. -/
def generateArrayItemValue (stencil : Json)
    (sample : List (String × Json)) (r : Rand) : Json × Rand :=
  match stencil with
  | .obj o =>
    let (o2, r2) := generateObjectFromTemplate o sample r
    (Json.obj o2, r2)
  | .arr a =>
    let (a2, r2) := generateArrayFromTemplate a sample r
    (Json.arr a2, r2)
  | _ => (generateValueFromSample "" sample, r)
termination_by (sizeOf stencil, 0)

end

/-- Counterexample for C1: a template whose field x holds the non-null
array [1] is not kept verbatim: one synthesis run (array-item count draw 0,
so one stencil item) turns it into [null], because the scalar stencil is
re-synthesized through the stubbed sample generator. -/
theorem generateObjectFromTemplate_not_verbatim :
    (generateObjectFromTemplate [("x", Json.arr [Json.num 1])] []
      ⟨[0], [], []⟩).1 ≠ [("x", Json.arr [Json.num 1])] := by
  have heval : (generateObjectFromTemplate [("x", Json.arr [Json.num 1])] []
      ⟨[0], [], []⟩).1 = [("x", Json.arr [Json.null])] := by
    simp [generateObjectFromTemplate, generateTemplateFieldValue,
      generateArrayFromTemplate, generateArrayItems, generateArrayItemValue,
      generateValueFromSample, Rand.intn]
  rw [heval]
  simp

/-- C1 amended: generateObjectFromTemplate keeps every non-null scalar
template field (neither object nor array) verbatim in the output; non-null
object fields are recursed into and non-null array fields are re-synthesized
from their first element, so only scalar operator overrides are guaranteed
to survive unchanged. -/
theorem generateObjectFromTemplate_scalar_preserved
    (tmpl sample : List (String × Json)) (r : Rand) (field : String)
    (v : Json) (hmem : (field, v) ∈ tmpl) (hnull : v ≠ Json.null)
    (hobj : ∀ o, v ≠ Json.obj o) (harr : ∀ a, v ≠ Json.arr a) :
    (field, v) ∈ (generateObjectFromTemplate tmpl sample r).1 := by
  revert hmem
  induction tmpl generalizing r with
  | nil => intro hmem; cases hmem
  | cons kv rest ih =>
    intro hmem
    obtain ⟨f0, tv⟩ := kv
    rcases hstep : generateTemplateFieldValue f0 tv sample r with ⟨v1, r1⟩
    rcases hrest : generateObjectFromTemplate rest sample r1 with ⟨restOut, r2⟩
    have hcons : (generateObjectFromTemplate ((f0, tv) :: rest) sample r).1
        = (f0, v1) :: restOut := by
      simp [generateObjectFromTemplate, hstep, hrest]
    rw [hcons]
    rcases List.mem_cons.mp hmem with he | hmem2
    · have hf : field = f0 := congrArg Prod.fst he
      have hv : v = tv := congrArg Prod.snd he
      subst hf
      have hscalar : generateTemplateFieldValue field tv sample r = (tv, r) := by
        cases tv with
        | null => exact absurd hv hnull
        | obj o => exact absurd hv (hobj o)
        | arr a => exact absurd hv (harr a)
        | bool b => simp [generateTemplateFieldValue]
        | num q => simp [generateTemplateFieldValue]
        | str s => simp [generateTemplateFieldValue]
      rw [hscalar] at hstep
      have hv1 : tv = v1 := congrArg Prod.fst hstep
      rw [hv, hv1]
      exact List.mem_cons_self _ _
    · refine List.mem_cons_of_mem _ ?_
      have h2 := ih r1 hmem2
      rw [hrest] at h2
      exact h2

/-- Witness for the amended C1: the non-null scalar override y stays
verbatim in the synthesized object. -/
theorem generateObjectFromTemplate_scalar_preserved_witness :
    ("y", Json.str "keep") ∈ (generateObjectFromTemplate
      [("y", Json.str "keep"), ("z", Json.null)] [] ⟨[], [], []⟩).1 :=
  generateObjectFromTemplate_scalar_preserved
    [("y", Json.str "keep"), ("z", Json.null)] [] ⟨[], [], []⟩ "y"
    (Json.str "keep") (by simp) (by simp) (fun o => by simp) (fun a => by simp)

/-- C7 (behavior at the failing input): for an empty array template and the
non-empty sample record of an order_item table, synthesis yields exactly one
item, but that item is null rather than an object shaped from the sample
record, because generateBodyFromSample is stubbed to return nil. -/
theorem generateArrayFromTemplate_empty_template_eval :
    (generateArrayFromTemplate []
      [("order_id", Json.num 7), ("quantity", Json.num 2)]
      ⟨[], [], []⟩).1 = [Json.null] := by
  simp [generateArrayFromTemplate, generateBodyFromSample]

/-- The database boundary of the basic-variant getValidForeignKeyValue: the
result of the existence check for the referenced table, the values present
in the requested column of the referenced table, and the outcome of the
random-row SELECT. -/
structure FkDb where
  existsCheck : Except String Bool
  columnValues : List Json
  selectValue : Except String Json

/-- Embedding of the basic-variant getValidForeignKeyValue
(generator.go:728-755): an absent referenced table or a failed lookup falls
back to rand.Intn(1000)+1; a successful lookup returns the scanned value; an
error of the existence check itself is propagated. -/
def getValidForeignKeyValue (db : FkDb) (r : Rand) :
    Except String Json × Rand :=
  match db.existsCheck with
  | .error e => (.error ("failed to check if table exists: " ++ e), r)
  | .ok false =>
    let (n, r1) := r.intn 1000
    (.ok (.num (n + 1)), r1)
  | .ok true =>
    match db.selectValue with
    | .ok v => (.ok v, r)
    | .error _ =>
      let (n, r1) := r.intn 1000
      (.ok (.num (n + 1)), r1)

theorem Rand.intn_lt (r : Rand) (k : Nat) (hk : 0 < k) : (r.intn k).1 < k := by
  obtain ⟨ints, floats, uuids⟩ := r
  cases ints with
  | nil => simpa [Rand.intn] using hk
  | cons h t => simpa [Rand.intn] using Nat.mod_lt h hk

/-- C5 amended (basic generator variant): when the referenced table is
absent or the lookup query fails, getValidForeignKeyValue falls back to a
synthetic positive integer in 1..1000 rather than failing; when the lookup
succeeds it returns the scanned value, which is a value of the referenced
column.  (In the LLM-augmented variant, with no assisting service
configured, both failure cases return an error instead.) -/
theorem getValidForeignKeyValue_fallback (db : FkDb) (r : Rand)
    (hdb : ∀ v, db.selectValue = Except.ok v → v ∈ db.columnValues) :
    ((db.existsCheck = Except.ok false
        ∨ (db.existsCheck = Except.ok true
            ∧ ∃ e, db.selectValue = Except.error e)) →
      getValidForeignKeyValue db r
          = (Except.ok (Json.num ((r.intn 1000).1 + 1)), (r.intn 1000).2)
        ∧ 0 < (r.intn 1000).1 + 1 ∧ (r.intn 1000).1 + 1 ≤ 1000)
    ∧ (∀ v, db.existsCheck = Except.ok true → db.selectValue = Except.ok v →
      getValidForeignKeyValue db r = (Except.ok v, r) ∧ v ∈ db.columnValues) := by
  constructor
  · intro hfail
    have hbound : (r.intn 1000).1 < 1000 := Rand.intn_lt r 1000 (by omega)
    refine ⟨?_, by omega, by omega⟩
    rcases hint : r.intn 1000 with ⟨n, r1⟩
    rcases hfail with habs | ⟨hex, e, herr⟩
    · simp only [getValidForeignKeyValue, habs, hint]
    · simp only [getValidForeignKeyValue, hex, herr, hint]
  · intro v hex hok
    refine ⟨?_, hdb v hok⟩
    simp only [getValidForeignKeyValue, hex, hok]

/-- Witness for the amended C5: with the referenced table absent and draw 0,
the fallback produces the positive integer 1. -/
theorem getValidForeignKeyValue_fallback_witness :
    getValidForeignKeyValue ⟨Except.ok false, [], Except.error "x"⟩
      ⟨[0], [], []⟩ = (Except.ok (Json.num 1), ⟨[], [], []⟩) := by
  have h := (getValidForeignKeyValue_fallback
    ⟨Except.ok false, [], Except.error "x"⟩ ⟨[0], [], []⟩
    (fun v hv => Except.noConfusion hv)).1 (Or.inl rfl)
  simpa [Rand.intn] using h.1

/-- One table suggestion of AnalyzeRelationships as consumed by the
LLM-variant getValidForeignKeyValue (only TableName is used). -/
structure FkSuggestion where
  TableName : String
deriving DecidableEq, Repr

/-- The column analysis returned by AnalyzeColumn: the suggested data type
and example value range of its DataPatterns. -/
structure ColumnAnalysis where
  DataType : String
  ValueRange : List Json

/-- The LLM client boundary of the LLM-variant getValidForeignKeyValue: the
outcomes of its AnalyzeRelationships and AnalyzeColumn calls. -/
structure FkLlm where
  analyzeRelationships : Except String (List FkSuggestion)
  analyzeColumn : Except String ColumnAnalysis

/-- The database boundary of the LLM-variant getValidForeignKeyValue, as
functions of the (possibly operator-substituted) table name. -/
structure FkDbEnv where
  tableExists : String → Except String Bool
  selectValue : String → String → Except String Json

/-- The SELECT step of the LLM-variant getValidForeignKeyValue
(db_generator.go:1024-1081): scan one random value; on failure, with no LLM
client the step errors; otherwise the column-analysis menu is shown and one
line is read (1 = typed value, 2 = value from the range, 3 = custom value,
anything else = invalid selection). -/
def fkSelectStep (clock : Clock) (llm : Option FkLlm) (db : FkDbEnv)
    (refTable columnName : String) (r : Rand) (stdin : Stdin) :
    Except String Json × Rand × Stdin :=
  match db.selectValue refTable columnName with
  | .ok v => (.ok v, r, stdin)
  | .error _ =>
    match llm with
    | none => (.error ("failed to get value from table '" ++ refTable
        ++ "' and LLM client is not available"), r, stdin)
    | some l =>
      match l.analyzeColumn with
      | .error e => (.error ("failed to analyze column with LLM: " ++ e), r, stdin)
      | .ok analysis =>
        let (choice, stdin1) := stdin.readInt
        if choice = 1 then
          let (v, r1) := generateValueForType clock analysis.DataType true
            columnName ColumnInfo.empty r
          (.ok v, r1, stdin1)
        else if choice = 2 then
          if 0 < analysis.ValueRange.length then
            let (i, r1) := r.intn analysis.ValueRange.length
            (.ok (analysis.ValueRange.getD i Json.null), r1, stdin1)
          else
            let (v, r1) := generateValueForType clock analysis.DataType true
              columnName ColumnInfo.empty r
            (.ok v, r1, stdin1)
        else if choice = 3 then
          let (custom, stdin2) := stdin1.readStr
          (.ok (.str custom), r, stdin2)
        else
          (.error "invalid selection", r, stdin1)

/-- Embedding of the LLM-variant getValidForeignKeyValue
(db_generator.go:971-1082): existence check, optional table disambiguation
through the LLM suggestions and one operator selection, then the SELECT
step. -/
def getValidForeignKeyValueLLM (clock : Clock) (llm : Option FkLlm)
    (db : FkDbEnv) (refTable columnName : String) (r : Rand) (stdin : Stdin) :
    Except String Json × Rand × Stdin :=
  match db.tableExists refTable with
  | .error e => (.error ("failed to check if table exists: " ++ e), r, stdin)
  | .ok true => fkSelectStep clock llm db refTable columnName r stdin
  | .ok false =>
    match llm with
    | none => (.error ("referenced table '" ++ refTable
        ++ "' not found and LLM client is not available"), r, stdin)
    | some l =>
      match l.analyzeRelationships with
      | .error e =>
        (.error ("failed to analyze relationships with LLM: " ++ e), r, stdin)
      | .ok suggestions =>
        let (choice, stdin1) := stdin.readInt
        if choice = 0 then
          let (custom, stdin2) := stdin1.readStr
          fkSelectStep clock llm db custom columnName r stdin2
        else if 0 < choice ∧ choice ≤ suggestions.length then
          fkSelectStep clock llm db
            ((suggestions.getD (choice.toNat - 1) ⟨""⟩).TableName) columnName
            r stdin1
        else
          (.error "invalid selection", r, stdin1)

/-- A database in which no table exists. -/
def witFkDbAbsent : FkDbEnv :=
  { tableExists := fun _ => Except.ok false,
    selectValue := fun _ _ => Except.error "no table" }

/-- Counterexample for C5: in the LLM-augmented variant, with no assisting
service configured and the referenced table absent, getValidForeignKeyValue
returns an error instead of falling back to a synthetic positive integer. -/
theorem getValidForeignKeyValueLLM_no_fallback :
    (getValidForeignKeyValueLLM witClock none witFkDbAbsent "customer" "id"
      ⟨[], [], []⟩ ⟨[], []⟩).1
      = Except.error
        "referenced table 'customer' not found and LLM client is not available" :=
  rfl

/-- One similar-tables pair of AnalyzeRelationships as consumed by
analyzeEndpointTables (only Table1 of the selected pair is used). -/
structure SimilarPair where
  Table1 : String
  Table2 : String
deriving DecidableEq, Repr

/-- The outcome of the exact-match information_schema lookup for the path
candidate (db_generator.go:222-229). -/
inductive LookupResult where
  | found (actualName : String)
  | noRows
  | queryErr (e : String)
deriving DecidableEq, Repr

/-- A foreign-key constraint as seen by the FindRelatedTables query: the
referencing (tc.table_name) and referenced (ccu.table_name) sides. -/
structure FkEdge where
  tcTable : String
  ccuTable : String
deriving DecidableEq, Repr

/-- Environment of analyzeEndpointTables: the DB lookup result for the
candidate, the LLM client (none when not configured) with the outcome of
its AnalyzeRelationships call, and the foreign-key constraints backing
FindRelatedTables. -/
structure EndpointEnv where
  lookup : LookupResult
  llm : Option (Except String (List SimilarPair))
  edges : List FkEdge

/-- Embedding of FindRelatedTables (table_analyzer.go:354-383): the SQL
query selects DISTINCT ccu.table_name over all foreign-key constraints in
which either side equals the argument; the Go loop then drops rows equal to
the argument itself. -/
def findRelatedTables (edges : List FkEdge) (tableName : String) :
    List String :=
  (((edges.filter
      (fun e => e.tcTable == tableName || e.ccuTable == tableName)).map
        (fun e => e.ccuTable)).dedup).filter (fun t => t ≠ tableName)

/-- Go strings.Split(s, "/") on a character list: always returns at least
one (possibly empty) segment. -/
def splitOnSlash : List Char → List (List Char)
  | [] => [[]]
  | c :: t =>
    if c = '/' then [] :: splitOnSlash t
    else
      match splitOnSlash t with
      | [] => [[c]]
      | seg :: rest => (c :: seg) :: rest

/-- Go strings.Trim(path, "/"): remove leading and trailing slashes. -/
def trimSlashes (l : List Char) : List Char :=
  ((l.dropWhile (fun c => c = '/')).reverse.dropWhile (fun c => c = '/')).reverse

theorem splitOnSlash_ne_nil (l : List Char) : splitOnSlash l ≠ [] := by
  cases l with
  | nil => simp [splitOnSlash]
  | cons c t =>
    by_cases hc : c = '/'
    · simp [splitOnSlash, hc]
    · simp only [splitOnSlash, if_neg hc]
      cases h : splitOnSlash t with
      | nil => simp
      | cons s rest => simp

/-- Embedding of analyzeEndpointTables (db_generator.go:211-297): candidate
from the last path segment, exact-match lookup, LLM disambiguation with one
operator selection on a miss, then FindRelatedTables appended after the
actualTableName scanned by the lookup (which stays at its zero value on the
disambiguation path).  The returned state carries the operator-input stream
after the call, making input consumption visible.  The query error of the
FindRelatedTables call itself is not modelled (not claim-relevant). -/
def analyzeEndpointTables (env : EndpointEnv) (_method path : String)
    (stdin : Stdin) : Except String (List String) × Stdin :=
  let parts := splitOnSlash (trimSlashes path.toList)
  if parts.length = 0 then (.error ("invalid path: " ++ path), stdin)
  else
    let tableName := goToLower (String.mk (parts.getLastD []))
    match env.lookup with
    | .queryErr e => (.error ("failed to query table: " ++ e), stdin)
    | .found actualName =>
      (.ok (actualName :: findRelatedTables env.edges tableName), stdin)
    | .noRows =>
      match env.llm with
      | none => (.error ("table '" ++ tableName
          ++ "' not found and LLM client is not available"), stdin)
      | some (.error e) =>
        (.error ("failed to analyze relationships with LLM: " ++ e), stdin)
      | some (.ok similarTables) =>
        let (choice, stdin1) := stdin.readInt
        if choice = 0 then
          let (custom, stdin2) := stdin1.readStr
          (.ok ("" :: findRelatedTables env.edges custom), stdin2)
        else if 0 < choice ∧ choice ≤ similarTables.length then
          let picked := (similarTables.getD (choice.toNat - 1) ⟨"", ""⟩).Table1
          (.ok ("" :: findRelatedTables env.edges picked), stdin1)
        else
          (.error "invalid selection", stdin1)

/-- C8: during table disambiguation exactly one menu line is read, and an
out-of-range selection (neither 0, which accepts a custom name, nor 1..n)
is a hard error for the current disambiguation: the call returns the
invalid-selection error immediately, with no retry and with the rest of the
operator input untouched, so the enclosing endpoint-generation step fails. -/
theorem analyzeEndpointTables_invalid_selection (env : EndpointEnv)
    (method path : String) (sims : List SimilarPair) (c : Int)
    (ints : List Int) (strs : List String)
    (hlook : env.lookup = LookupResult.noRows)
    (hllm : env.llm = some (Except.ok sims))
    (hc0 : ¬ c = 0) (hcn : ¬ (0 < c ∧ c ≤ sims.length)) :
    analyzeEndpointTables env method path ⟨c :: ints, strs⟩
      = (Except.error "invalid selection", ⟨ints, strs⟩) := by
  unfold analyzeEndpointTables
  rw [if_neg (by simpa using splitOnSlash_ne_nil (trimSlashes path.toList))]
  rw [hlook, hllm]
  simp only [Stdin.readInt]
  rw [if_neg hc0, if_neg hcn]

/-- Witness for C8: a two-suggestion menu answered with 5 errors out at once
and consumes exactly the one line. -/
theorem analyzeEndpointTables_invalid_selection_witness :
    analyzeEndpointTables
      ⟨LookupResult.noRows, some (Except.ok [⟨"a", "b"⟩, ⟨"c", "d"⟩]), []⟩
      "GET" "/api/users" ⟨[5], ["unused"]⟩
      = (Except.error "invalid selection", ⟨[], ["unused"]⟩) :=
  analyzeEndpointTables_invalid_selection
    ⟨LookupResult.noRows, some (Except.ok [⟨"a", "b"⟩, ⟨"c", "d"⟩]), []⟩
    "GET" "/api/users" [⟨"a", "b"⟩, ⟨"c", "d"⟩] 5 [] ["unused"] rfl rfl
    (by decide) (by decide)

/-- C9 (behavior at the failing input): when the candidate clientmapping has
no exact match and the operator accepts LLM suggestion 1 (client_mapping),
the returned table list starts with the never-assigned actualTableName, that
is with the empty string, not with the resolved primary table. -/
theorem analyzeEndpointTables_disambiguation_head_eval :
    (analyzeEndpointTables
      ⟨LookupResult.noRows, some (Except.ok [⟨"client_mapping", "orders"⟩]), []⟩
      "GET" "/api/ClientMapping" ⟨[1], []⟩).1
      = Except.ok [""] :=
  rfl

/-- One endpoint template entry (types.EndpointTestData): path parameters,
query parameters, body and headers. -/
structure EndpointTestData where
  pathParams : List (String × Json)
  queryParams : List (String × Json)
  body : Json
  headers : List (String × String)

/-- The per-endpoint loop of GenerateTestData (db_generator.go:79-97), with
generateEndpointData abstracted as a function of the parsed method, path and
template entry: a failed endpoint only prints a warning and keeps its
template entry unchanged; a successful one is replaced by the generated
data; the loop never stops early, and its result is the merged template that
saveTestData then writes. -/
def generateTestDataLoop
    (gen : String → String → EndpointTestData → Except String EndpointTestData)
    (endpoints : List (String × EndpointTestData)) :
    List (String × EndpointTestData) :=
  endpoints.map (fun kv =>
    match gen (parseEndpointString kv.1).1 (parseEndpointString kv.1).2 kv.2 with
    | .ok d => (kv.1, d)
    | .error _ => kv)

/-- C6: per-endpoint failure is contained: an endpoint whose generation
errors keeps its template entry unchanged in the merged template, every
endpoint whose generation succeeds gets its generated entry, and the loop
always completes with exactly one entry per endpoint, so the merged template
for all other endpoints is still written at the end of the run. -/
theorem generateTestDataLoop_contained
    (gen : String → String → EndpointTestData → Except String EndpointTestData)
    (endpoints : List (String × EndpointTestData)) :
    (generateTestDataLoop gen endpoints).length = endpoints.length
    ∧ (∀ k d, (k, d) ∈ endpoints →
      (∀ e, gen (parseEndpointString k).1 (parseEndpointString k).2 d
          = Except.error e →
        (k, d) ∈ generateTestDataLoop gen endpoints)
      ∧ (∀ d', gen (parseEndpointString k).1 (parseEndpointString k).2 d
          = Except.ok d' →
        (k, d') ∈ generateTestDataLoop gen endpoints)) := by
  constructor
  · exact List.length_map endpoints _
  · intro k d hmem
    constructor
    · intro e herr
      have h := List.mem_map_of_mem (fun kv =>
        match gen (parseEndpointString kv.1).1 (parseEndpointString kv.1).2 kv.2 with
        | .ok d => (kv.1, d)
        | .error _ => kv) hmem
      simpa [generateTestDataLoop, herr] using h
    · intro d' hok
      have h := List.mem_map_of_mem (fun kv =>
        match gen (parseEndpointString kv.1).1 (parseEndpointString kv.1).2 kv.2 with
        | .ok d => (kv.1, d)
        | .error _ => kv) hmem
      simpa [generateTestDataLoop, hok] using h

/-- A generation function for witnesses: endpoints with path /fail error,
all others get a generated body. -/
def witGen : String → String → EndpointTestData → Except String EndpointTestData :=
  fun _ path d =>
    if path = "/fail" then Except.error "boom"
    else Except.ok { d with body := Json.str "generated" }

/-- An all-empty endpoint template entry used by witnesses. -/
def witEntry : EndpointTestData :=
  { pathParams := [], queryParams := [], body := Json.null, headers := [] }

/-- Witness for C6: with one failing and one succeeding endpoint, the failed
entry survives unchanged and the successful one is replaced, both present in
the merged result. -/
theorem generateTestDataLoop_contained_witness :
    ("POST /fail", witEntry) ∈ generateTestDataLoop witGen
        [("POST /fail", witEntry), ("POST /ok", witEntry)]
    ∧ ("POST /ok", { witEntry with body := Json.str "generated" })
      ∈ generateTestDataLoop witGen
        [("POST /fail", witEntry), ("POST /ok", witEntry)] := by
  constructor
  · exact ((generateTestDataLoop_contained witGen
      [("POST /fail", witEntry), ("POST /ok", witEntry)]).2 "POST /fail"
      witEntry (by simp)).1 "boom" rfl
  · exact ((generateTestDataLoop_contained witGen
      [("POST /fail", witEntry), ("POST /ok", witEntry)]).2 "POST /ok"
      witEntry (by simp)).2 { witEntry with body := Json.str "generated" } rfl

end AutoApiTester
